import Mathlib

/-!
# QUdev: rule registry, monitoring loop and device enumeration

A shallow embedding of `QUdevPrivate` (src/QUdev_private.cpp, src/QUdev_private.h,
src/QUdevDeclarations.h).

Modelling conventions.

* `QString` is `String`.  A `const char*` that libudev returns is kept as the
  string of its characters (one character per byte), so `QString::fromLatin1`
  only turns a NULL pointer into the empty `QString`.  A `QString` that the
  code hands to libudev goes through `toLatin1().constData()` or
  `toUtf8().constData()`: the bytes of the encoding, read as a C string up to
  the first NUL.
* A libudev device handle is a `UdevDevice`: the device's own node and the
  chain of its parents, nearest parent first.  A NULL handle is `none`.
* The object state is passed explicitly; member functions return the result
  together with the new state.
-/

namespace QUdev

/-! ## Data model (src/QUdevDeclarations.h) -/

/-- All currently supported udev event actions (`enum QUdevEventAction`). -/
inductive QUdevEventAction
  | eDeviceAdd
  | eDeviceRemove
  | eDeviceChange
  | eDeviceOnline
  | eDeviceOffline
  | eDeviceUnknownAction
  deriving DecidableEq, Repr

/-- One device record (`struct QUdevDevice`); a default constructed record has
all fields empty. -/
structure QUdevDevice where
  m_strSysfsPath : String := ""
  m_strDevPath : String := ""
  m_strSubsystem : String := ""
  m_strDeviceType : String := ""
  m_strVendorID : String := ""
  m_strProductID : String := ""
  m_strManufacturer : String := ""
  m_strProduct : String := ""
  m_strSerial : String := ""
  deriving DecidableEq, Repr

/-- A single monitored udev event (`struct QUdevEvent`). -/
structure QUdevEvent where
  m_ueAction : QUdevEventAction
  m_udDev : QUdevDevice
  deriving DecidableEq, Repr

/-! ## The device source (libudev), as far as the code uses it -/

/-- One node of the sysfs device tree, with the properties the code reads. -/
structure UdevNode where
  syspath : String
  devnode : Option String := none
  subsystem : Option String := none
  devtype : Option String := none
  action : Option String := none
  sysattrs : List (String × String) := []
  deriving DecidableEq, Repr

/-- A device handle: the device's own node and its parents, nearest first. -/
structure UdevDevice where
  node : UdevNode
  ancestors : List UdevNode := []
  deriving DecidableEq, Repr

/-- Conversion `QString::fromLatin1(const char*)`: a NULL pointer gives the empty string. -/
def fromLatin1 (s : Option String) : String :=
  match s with
  | some t => t
  | none => ""

/-- The Latin-1 bytes `QString::toLatin1` produces for one character: the
character itself up to U+00FF, a question mark for every UTF-16 code unit above
(two code units beyond U+FFFF). -/
def latin1Bytes (c : Char) : List Char :=
  if c.toNat ≤ 0xFF then [c]
  else if c.toNat ≤ 0xFFFF then ['?']
  else ['?', '?']

/-- Conversion `QString::toLatin1()`, the byte array written one character per byte. -/
def toLatin1 (s : String) : String :=
  String.mk (s.data.flatMap latin1Bytes)

/-- The UTF-8 bytes of one character, as numbers. -/
def utf8Bytes (c : Char) : List Nat :=
  let v := c.toNat
  if v ≤ 0x7F then [v]
  else if v ≤ 0x7FF then [0xC0 + v / 64, 0x80 + v % 64]
  else if v ≤ 0xFFFF then [0xE0 + v / 4096, 0x80 + v / 64 % 64, 0x80 + v % 64]
  else [0xF0 + v / 262144, 0x80 + v / 4096 % 64, 0x80 + v / 64 % 64, 0x80 + v % 64]

/-- Conversion `QString::toUtf8()`, the byte array written one character per byte. -/
def toUtf8 (s : String) : String :=
  String.mk (s.data.flatMap (fun c => (utf8Bytes c).map Char.ofNat))

/-- What a C function reads from `QByteArray::constData()`: the bytes before the
first NUL. -/
def constData (bytes : String) : String :=
  String.mk (bytes.data.takeWhile (fun c => c.toNat != 0))

/-- The string consists of characters U+0001 to U+00FF: `toLatin1().constData()`
hands it to libudev unchanged. -/
def isLatin1CString (s : String) : Bool :=
  s.data.all (fun c => c.toNat != 0 && decide (c.toNat ≤ 0xFF))

/-- The string consists of characters U+0001 to U+007F: `toUtf8().constData()`
hands it to libudev unchanged. -/
def isAsciiCString (s : String) : Bool :=
  s.data.all (fun c => c.toNat != 0 && decide (c.toNat ≤ 0x7F))

/-- Accessor `udev_device_get_sysattr_value(dev, name)` on a node. -/
def udev_device_get_sysattr_value (n : UdevNode) (name : String) : Option String :=
  n.sysattrs.lookup name

/-- Test used by the ancestry walk: the node's subsystem and devtype are both
set and equal to the requested ones. -/
def nodeHasSubsystemDevtype (subsystem devtype : String) (p : UdevNode) : Bool :=
  p.subsystem == some subsystem && p.devtype == some devtype

/-- Library call `udev_device_get_parent_with_subsystem_devtype(dev, subsystem, devtype)`:
walks up the chain of parents and returns the first one with the given
subsystem and devtype; NULL for a NULL device or when there is none. -/
def udev_device_get_parent_with_subsystem_devtype (dev : Option UdevDevice)
    (subsystem devtype : String) : Option UdevNode :=
  match dev with
  | none => none
  | some d => d.ancestors.find? (nodeHasSubsystemDevtype subsystem devtype)

/-! ## Monitor rules (src/QUdev_private.h) -/

/-- One rule for events we want to be notified about (`QUdevInternalWatcherEntry`). -/
structure QUdevInternalWatcherEntry where
  m_strSubsystem : String
  m_strDeviceType : String
  m_strParentSubSystem : String
  m_strParentDeviceType : String
  deriving DecidableEq, Repr

/-- Comparison `QUdevInternalWatcherEntry::operator==`: the conjunction of the four
field comparisons (the `this != &Other` shortcut returns `true` for the very
same object, for which the four comparisons are `true` as well). -/
def QUdevInternalWatcherEntry.opEq (a b : QUdevInternalWatcherEntry) : Bool :=
  let bSame := true
  let bSame := bSame && (a.m_strSubsystem == b.m_strSubsystem)
  let bSame := bSame && (a.m_strDeviceType == b.m_strDeviceType)
  let bSame := bSame && (a.m_strParentSubSystem == b.m_strParentSubSystem)
  let bSame := bSame && (a.m_strParentDeviceType == b.m_strParentDeviceType)
  bSame

/-- Member `QList::contains`: some element compares equal with `operator==`. -/
def qlistContains (l : List QUdevInternalWatcherEntry) (iwe : QUdevInternalWatcherEntry) : Bool :=
  l.any (fun e => e.opEq iwe)

/-- Member `QList::removeOne`: removes the first element that compares equal. -/
def qlistRemoveOne (l : List QUdevInternalWatcherEntry) (iwe : QUdevInternalWatcherEntry) :
    List QUdevInternalWatcherEntry :=
  match l with
  | [] => []
  | e :: rest => if e.opEq iwe then rest else e :: qlistRemoveOne rest iwe

/-! ## Object state -/

/-- The part of `QUdevPrivate` that the member functions read and write.
`monitorFilters` is the filter list held by the monitor handle `m_pMon`
(`udev_monitor_filter_remove` empties it,
`udev_monitor_filter_add_match_subsystem_devtype` appends to it);
`threadRunning` is `QThread::isRunning()`. -/
structure QUdevPrivate where
  m_lMonitorEntries : List QUdevInternalWatcherEntry := []
  monitorFilters : List (String × String) := []
  m_bMonitoringActive : Bool := false
  threadRunning : Bool := false
  deriving DecidableEq, Repr

/-- The block shared by `addNewMonitorRule` and `removeMonitorRule` after the list
was changed: clear all filters, and if the list is not empty add one filter
per entry, set the running flag and start the thread if it is not running. -/
def reinstallFilters (s : QUdevPrivate) : QUdevPrivate :=
  let s := { s with monitorFilters := [] }
  if s.m_lMonitorEntries.isEmpty = false then
    let s := s.m_lMonitorEntries.foldl
      (fun st iwe => { st with
        monitorFilters := st.monitorFilters ++
          [(constData (toLatin1 iwe.m_strSubsystem),
            constData (toLatin1 iwe.m_strDeviceType))] }) s
    let s := { s with m_bMonitoringActive := true }
    if s.threadRunning = false then { s with threadRunning := true } else s
  else s

/-- Member `QUdevPrivate::addNewMonitorRule` (src/QUdev_private.cpp:139-165). -/
def addNewMonitorRule (s : QUdevPrivate)
    (strSubSystem strDeviceType strParentSubSystem strParentDeviceType : String) :
    Bool × QUdevPrivate :=
  let iwe : QUdevInternalWatcherEntry :=
    ⟨strSubSystem, strDeviceType, strParentSubSystem, strParentDeviceType⟩
  if qlistContains s.m_lMonitorEntries iwe then (false, s)
  else
    let s := { s with m_lMonitorEntries := s.m_lMonitorEntries ++ [iwe] }
    (true, reinstallFilters s)

/-- Member `QUdevPrivate::removeMonitorRule` (src/QUdev_private.cpp:167-194). -/
def removeMonitorRule (s : QUdevPrivate)
    (strSubSystem strDeviceType strParentSubSystem strParentDeviceType : String) :
    Bool × QUdevPrivate :=
  let iwe : QUdevInternalWatcherEntry :=
    ⟨strSubSystem, strDeviceType, strParentSubSystem, strParentDeviceType⟩
  if qlistContains s.m_lMonitorEntries iwe = false then (false, s)
  else
    let s := { s with m_lMonitorEntries := qlistRemoveOne s.m_lMonitorEntries iwe }
    (true, reinstallFilters s)

/-! ## Action translation -/

/-- Assignment `map[key] = value` on a `QMap<QString, QUdevEventAction>` kept as an
association list: the value of an existing key is replaced, a new key is added. -/
def qmapAssign (m : List (String × QUdevEventAction)) (key : String) (value : QUdevEventAction) :
    List (String × QUdevEventAction) :=
  match m with
  | [] => [(key, value)]
  | (k, v) :: rest => if k == key then (k, value) :: rest else (k, v) :: qmapAssign rest key value

/-- The action map `m_mUdevActions` as the constructor fills it
(src/QUdev_private.cpp:30-35); no other code writes to it. -/
def m_mUdevActions : List (String × QUdevEventAction) :=
  let m : List (String × QUdevEventAction) := []
  let m := qmapAssign m "add" QUdevEventAction.eDeviceAdd
  let m := qmapAssign m "remove" QUdevEventAction.eDeviceRemove
  let m := qmapAssign m "change" QUdevEventAction.eDeviceChange
  let m := qmapAssign m "online" QUdevEventAction.eDeviceOnline
  let m := qmapAssign m "offline" QUdevEventAction.eDeviceOffline
  m

/-- Member `QUdevPrivate::getQUdevEventActionFromUdevAction`
(src/QUdev_private.cpp:284-294). -/
def getQUdevEventActionFromUdevAction (strUdevAction : String) : QUdevEventAction :=
  match m_mUdevActions.lookup strUdevAction with
  | some a => a
  | none => QUdevEventAction.eDeviceUnknownAction

/-! ## The monitoring loop (`QUdevPrivate::run`) -/

/-- What the `foreach` over the rules carries from one rule to the next:
`parent_dev`, which is declared before the loop (src/QUdev_private.cpp:219) and
only assigned inside it, and the events emitted so far. -/
structure DispatchState where
  parent_dev : Option UdevNode := none
  emitted : List QUdevEvent := []
  deriving DecidableEq, Repr

/-- The event filled in for a matching rule (src/QUdev_private.cpp:251-269);
`detail_dev` is the device the attributes are read from. -/
def fillEvent (dev : UdevDevice) (iwe : QUdevInternalWatcherEntry) (detail_dev : UdevNode) :
    QUdevEvent :=
  { m_ueAction := getQUdevEventActionFromUdevAction (fromLatin1 dev.node.action)
    m_udDev :=
      { m_strSubsystem := iwe.m_strSubsystem
        m_strDeviceType := iwe.m_strDeviceType
        m_strSysfsPath := fromLatin1 (some dev.node.syspath)
        m_strDevPath := fromLatin1 dev.node.devnode
        m_strVendorID := fromLatin1 (udev_device_get_sysattr_value detail_dev "idVendor")
        m_strProductID := fromLatin1 (udev_device_get_sysattr_value detail_dev "idProduct")
        m_strManufacturer := fromLatin1 (udev_device_get_sysattr_value detail_dev "manufacturer")
        m_strProduct := fromLatin1 (udev_device_get_sysattr_value detail_dev "product")
        m_strSerial := fromLatin1 (udev_device_get_sysattr_value detail_dev "serial") } }

/-- Body of the `foreach` over `m_lMonitorEntries` for one rule
(src/QUdev_private.cpp:227-273). -/
def runRule (dev : UdevDevice) (st : DispatchState) (iwe : QUdevInternalWatcherEntry) :
    DispatchState :=
  let bMatch := true
  let bMatch := bMatch && (iwe.m_strSubsystem == fromLatin1 dev.node.subsystem)
  let bMatch := bMatch && (iwe.m_strDeviceType == fromLatin1 dev.node.devtype)
  let parentWanted :=
    bMatch && (!iwe.m_strParentSubSystem.isEmpty && !iwe.m_strParentDeviceType.isEmpty)
  let parent_dev :=
    if parentWanted then
      udev_device_get_parent_with_subsystem_devtype (some dev)
        (constData (toLatin1 iwe.m_strParentSubSystem))
        (constData (toLatin1 iwe.m_strParentDeviceType))
    else st.parent_dev
  let bMatch := if parentWanted then bMatch && parent_dev.isSome else bMatch
  if bMatch then
    let detail_dev : UdevNode :=
      match parent_dev with
      | some p => p
      | none => dev.node
    { parent_dev := parent_dev, emitted := st.emitted ++ [fillEvent dev iwe detail_dev] }
  else
    { parent_dev := parent_dev, emitted := st.emitted }

/-- The block run for one received device (src/QUdev_private.cpp:219-277): the
events emitted, in emission order. -/
def dispatch (rules : List QUdevInternalWatcherEntry) (dev : UdevDevice) : List QUdevEvent :=
  (rules.foldl (runRule dev) { parent_dev := none, emitted := [] }).emitted

/-- State of the monitoring thread: the datagrams waiting on the monitor socket
(`udev_monitor_receive_device` gives a device or NULL for each), the events
handed to the signal `newUDevEvent` so far, and the time spent in `msleep`. -/
structure MonitorLoop where
  pending : List (Option UdevDevice) := []
  delivered : List QUdevEvent := []
  sleptMs : Nat := 0
  deriving DecidableEq, Repr

/-- One iteration of the `while` body of `QUdevPrivate::run`
(src/QUdev_private.cpp:205-280): a zero-timeout `select`, at most one
`udev_monitor_receive_device`, the dispatch, and `msleep(500)`. -/
def runIteration (s : QUdevPrivate) (l : MonitorLoop) : MonitorLoop :=
  let l :=
    match l.pending with
    | [] => l
    | received :: rest =>
      let l := { l with pending := rest }
      match received with
      | some dev => { l with delivered := l.delivered ++ dispatch s.m_lMonitorEntries dev }
      | none => l
  { l with sleptMs := l.sleptMs + 500 }

/-! ## Device enumeration (`QUdevPrivate::getUDevDevicesForSubsystem`) -/

/-- The device database behind the `udev` handle: for a subsystem match, the
list entry names produced by `udev_enumerate_scan_devices`, in list order, and
the result of `udev_device_new_from_syspath`. -/
structure DeviceSource where
  scanSubsystem : String → List String
  deviceNewFromSyspath : String → Option UdevDevice

/-- The libudev calls of `getUDevDevicesForSubsystem` that are recorded. -/
inductive UdevCall
  | enumerate_new
  | enumerate_add_match_subsystem (subsystem : String)
  | enumerate_scan_devices
  | device_new_from_syspath (syspath : String)
  | enumerate_unref
  deriving DecidableEq, Repr

/-- Calls that read the device database: the sysfs scan and a device lookup. -/
def UdevCall.isQuery : UdevCall → Bool
  | UdevCall.enumerate_scan_devices => true
  | UdevCall.device_new_from_syspath _ => true
  | _ => false

/-- Accessor `udev_device_get_devtype`, NULL on a NULL handle. -/
def udev_device_get_devtype (dev : Option UdevDevice) : Option String :=
  dev.bind (fun d => d.node.devtype)

/-- Accessor `udev_device_get_devnode`, NULL on a NULL handle. -/
def udev_device_get_devnode (dev : Option UdevDevice) : Option String :=
  dev.bind (fun d => d.node.devnode)

/-- Body of `udev_list_entry_foreach` for one list entry
(src/QUdev_private.cpp:93-131); `acc` holds `lDevices` and the calls so far. -/
def enumerateEntry (src : DeviceSource)
    (strSubSystem strDeviceType strParentSubSystem strParentDeviceType : String)
    (acc : List QUdevDevice × List UdevCall) (name : String) :
    List QUdevDevice × List UdevCall :=
  let udDev : QUdevDevice := {}
  let udDev := { udDev with m_strSysfsPath := fromLatin1 (some name) }
  let dev := src.deviceNewFromSyspath (constData (toLatin1 udDev.m_strSysfsPath))
  let calls := acc.2 ++
    [UdevCall.device_new_from_syspath (constData (toLatin1 udDev.m_strSysfsPath))]
  if strDeviceType.isEmpty || (fromLatin1 (udev_device_get_devtype dev) == strDeviceType) then
    let udDev := { udDev with m_strDevPath := fromLatin1 (udev_device_get_devnode dev) }
    let udDev := { udDev with m_strSubsystem := strSubSystem }
    let udDev := { udDev with m_strDeviceType := strDeviceType }
    let dev : Option UdevNode :=
      if !strParentSubSystem.isEmpty && !strParentDeviceType.isEmpty then
        udev_device_get_parent_with_subsystem_devtype dev
          (constData (toLatin1 strParentSubSystem)) (constData (toLatin1 strParentDeviceType))
      else dev.map (fun d => d.node)
    match dev with
    | some d =>
      let udDev :=
        { udDev with
          m_strVendorID := fromLatin1 (udev_device_get_sysattr_value d "idVendor")
          m_strProductID := fromLatin1 (udev_device_get_sysattr_value d "idProduct")
          m_strManufacturer := fromLatin1 (udev_device_get_sysattr_value d "manufacturer")
          m_strProduct := fromLatin1 (udev_device_get_sysattr_value d "product")
          m_strSerial := fromLatin1 (udev_device_get_sysattr_value d "serial") }
      (acc.1 ++ [udDev], calls)
    | none => (acc.1, calls)
  else (acc.1, calls)

/-- Member `QUdevPrivate::getUDevDevicesForSubsystem` (src/QUdev_private.cpp:74-137):
the returned list and the recorded libudev calls. -/
def getUDevDevicesForSubsystem (src : DeviceSource)
    (strSubSystem strDeviceType strParentSubSystem strParentDeviceType : String) :
    List QUdevDevice × List UdevCall :=
  let calls := [UdevCall.enumerate_new]
  let lDevices : List QUdevDevice := []
  if strSubSystem.isEmpty then (lDevices, calls)
  else
    let calls := calls ++
      [UdevCall.enumerate_add_match_subsystem (constData (toUtf8 strSubSystem))]
    let calls := calls ++ [UdevCall.enumerate_scan_devices]
    let devices := src.scanSubsystem (constData (toUtf8 strSubSystem))
    let r := devices.foldl
      (enumerateEntry src strSubSystem strDeviceType strParentSubSystem strParentDeviceType)
      (lDevices, calls)
    (r.1, r.2 ++ [UdevCall.enumerate_unref])

/-! ## The thread function as a loop -/

/-- First block of the destructor `QUdevPrivate::~QUdevPrivate`
(src/QUdev_private.cpp:50-55): the running flag is cleared under the mutex. The
destructor then waits for the thread, that is, for `run` to return. -/
def requestStop (s : QUdevPrivate) : QUdevPrivate :=
  { s with m_bMonitoringActive := false }

/-- The loop `while(m_bMonitoringActive)` of `QUdevPrivate::run`
(src/QUdev_private.cpp:203-281). The object is shared with the calling thread,
so the loop is given `observe k`, the object as the thread finds it in its pass
number `k`: the flag at the loop test and the rule list under the mutex. The
result is the loop state when `run` returns, and `none` when the fuel runs out
before that. -/
def run (observe : Nat → QUdevPrivate) : Nat → Nat → MonitorLoop → Option MonitorLoop
  | 0, _, _ => none
  | fuel + 1, k, l =>
    if (observe k).m_bMonitoringActive then
      run observe fuel (k + 1) (runIteration (observe k) l)
    else some l

/-- The events emitted for one datagram taken from the monitor socket: the
dispatch for a device, nothing for a NULL device. -/
def eventsFor (s : QUdevPrivate) (received : Option UdevDevice) : List QUdevEvent :=
  match received with
  | some dev => dispatch s.m_lMonitorEntries dev
  | none => []

/-! ## Call sequences on the registry -/

/-- One call of the public rule interface. -/
inductive RegistryCall
  | addRule (subsystem deviceType parentSubsystem parentDeviceType : String)
  | removeRule (subsystem deviceType parentSubsystem parentDeviceType : String)
  deriving DecidableEq, Repr

/-- The object after one call; the Boolean result is dropped. -/
def applyCall (s : QUdevPrivate) : RegistryCall → QUdevPrivate
  | RegistryCall.addRule a b c d => (addNewMonitorRule s a b c d).2
  | RegistryCall.removeRule a b c d => (removeMonitorRule s a b c d).2

/-- The object after a sequence of calls. The states reachable from the freshly
constructed object are `applyCalls {} calls`. -/
def applyCalls (s : QUdevPrivate) (calls : List RegistryCall) : QUdevPrivate :=
  calls.foldl applyCall s

/-- The (subsystem, device type) pair that
`udev_monitor_filter_add_match_subsystem_devtype` is called with for a rule. -/
def filterPair (e : QUdevInternalWatcherEntry) : String × String :=
  (constData (toLatin1 e.m_strSubsystem), constData (toLatin1 e.m_strDeviceType))

/-- What holds of the object between calls, starting from construction: no two
equal rules, the monitor's filter list mirrors the rule list, a non-empty rule
list has the running flag set, and the thread runs exactly when the flag is set. -/
def RegistryInv (s : QUdevPrivate) : Prop :=
  s.m_lMonitorEntries.Nodup ∧
  s.monitorFilters = s.m_lMonitorEntries.map filterPair ∧
  (s.m_lMonitorEntries ≠ [] → s.m_bMonitoringActive = true) ∧
  s.threadRunning = s.m_bMonitoringActive

/-! ## The matching relation as the specification words it -/

/-- The device has an ancestor with the given subsystem and device type. -/
def hasAncestor (dev : UdevDevice) (subsystem devtype : String) : Prop :=
  ∃ p ∈ dev.ancestors, p.subsystem = some subsystem ∧ p.devtype = some devtype

instance hasAncestorDecidable (dev : UdevDevice) (subsystem devtype : String) :
    Decidable (hasAncestor dev subsystem devtype) := by
  unfold hasAncestor
  infer_instance

/-- A rule matches a notification: the rule's subsystem equals the notification's
subsystem, the rule's device type equals the notification's device type as
strings (an unset native field reads as the empty string), and, when the rule's
parent subsystem and parent device type are both non-empty, the notification
device has an ancestor with that subsystem and type. -/
def ruleMatches (dev : UdevDevice) (r : QUdevInternalWatcherEntry) : Prop :=
  r.m_strSubsystem = fromLatin1 dev.node.subsystem ∧
  r.m_strDeviceType = fromLatin1 dev.node.devtype ∧
  (r.m_strParentSubSystem ≠ "" ∧ r.m_strParentDeviceType ≠ "" →
    hasAncestor dev r.m_strParentSubSystem r.m_strParentDeviceType)

instance ruleMatchesDecidable (dev : UdevDevice) (r : QUdevInternalWatcherEntry) :
    Decidable (ruleMatches dev r) := by
  unfold ruleMatches
  infer_instance

/-- What an Event delivered for rule `r` on notification `dev` must carry
according to the matching step: the translated action and the rule's subsystem
and device type. -/
def eventIsFor (dev : UdevDevice) (r : QUdevInternalWatcherEntry) (e : QUdevEvent) : Prop :=
  e.m_ueAction = getQUdevEventActionFromUdevAction (fromLatin1 dev.node.action) ∧
  e.m_udDev.m_strSubsystem = r.m_strSubsystem ∧
  e.m_udDev.m_strDeviceType = r.m_strDeviceType

/-! ## Enumeration as the specification words it -/

/-- The Device returned for a candidate: the candidate's sysfs path and device
node path, the requested subsystem and device type, and the attribute fields of
the matched device. -/
def deviceRecord (sysfsPath : String) (candidate : UdevDevice) (subsystem deviceType : String)
    (matched : UdevNode) : QUdevDevice :=
  { m_strSysfsPath := sysfsPath
    m_strDevPath := fromLatin1 candidate.node.devnode
    m_strSubsystem := subsystem
    m_strDeviceType := deviceType
    m_strVendorID := fromLatin1 (udev_device_get_sysattr_value matched "idVendor")
    m_strProductID := fromLatin1 (udev_device_get_sysattr_value matched "idProduct")
    m_strManufacturer := fromLatin1 (udev_device_get_sysattr_value matched "manufacturer")
    m_strProduct := fromLatin1 (udev_device_get_sysattr_value matched "product")
    m_strSerial := fromLatin1 (udev_device_get_sysattr_value matched "serial") }

/-- What enumeration yields for one candidate: nothing when the candidate gives no
usable handle, when a non-empty `deviceType` differs from the candidate's device
type, or when parent matching is active (both parent fields non-empty) and no
ancestor has that subsystem and type; otherwise one Device, with the attributes
of the nearest qualifying ancestor under parent matching and of the candidate
itself without it. -/
def enumerateCandidate (src : DeviceSource)
    (subsystem deviceType parentSubsystem parentDeviceType : String) (sysfsPath : String) :
    Option QUdevDevice :=
  match src.deviceNewFromSyspath sysfsPath with
  | none => none
  | some candidate =>
    if deviceType ≠ "" ∧ fromLatin1 candidate.node.devtype ≠ deviceType then none
    else if parentSubsystem ≠ "" ∧ parentDeviceType ≠ "" then
      match candidate.ancestors.find?
          (fun p => decide (p.subsystem = some parentSubsystem ∧
            p.devtype = some parentDeviceType)) with
      | some ancestor => some (deviceRecord sysfsPath candidate subsystem deviceType ancestor)
      | none => none
    else some (deviceRecord sysfsPath candidate subsystem deviceType candidate.node)

/-- The enumeration result: one Device per accepted candidate, in the device
source's enumeration order. -/
def enumerateDevicesSpec (src : DeviceSource)
    (subsystem deviceType parentSubsystem parentDeviceType : String) : List QUdevDevice :=
  (src.scanSubsystem subsystem).filterMap
    (enumerateCandidate src subsystem deviceType parentSubsystem parentDeviceType)

/-! ## Example data -/

/-- A USB hub port device carrying the USB identification attributes. -/
def exampleUsbParent : UdevNode :=
  { syspath := "/sys/devices/pci0000:00/usb1/1-1"
    subsystem := some "usb"
    devtype := some "usb_device"
    sysattrs := [("idVendor", "0781"), ("idProduct", "5567"), ("manufacturer", "SanDisk"),
      ("product", "Cruzer Blade"), ("serial", "4C530001")] }

/-- A disk on that USB device, announced with action "add"; the disk node itself
has none of the identification attributes. -/
def exampleUsbDisk : UdevDevice :=
  { node :=
      { syspath := "/sys/devices/pci0000:00/usb1/1-1/block/sdb"
        devnode := some "/dev/sdb"
        subsystem := some "block"
        devtype := some "disk"
        action := some "add" }
    ancestors := [exampleUsbParent] }

/-- A partition of that disk. -/
def exampleUsbPartition : UdevDevice :=
  { node :=
      { syspath := "/sys/devices/pci0000:00/usb1/1-1/block/sdb/sdb1"
        devnode := some "/dev/sdb1"
        subsystem := some "block"
        devtype := some "partition" }
    ancestors := [exampleUsbDisk.node, exampleUsbParent] }

/-- A device database with the disk, a path that has vanished, and the partition
in subsystem "block". -/
def exampleSource : DeviceSource :=
  { scanSubsystem := fun subsystem =>
      if subsystem = "block" then
        [exampleUsbDisk.node.syspath, "/sys/devices/gone", exampleUsbPartition.node.syspath]
      else []
    deviceNewFromSyspath := fun syspath =>
      if syspath = exampleUsbDisk.node.syspath then some exampleUsbDisk
      else if syspath = exampleUsbPartition.node.syspath then some exampleUsbPartition
      else none }

/-- The object as the thread sees it when the rule (block, disk) was added before
the thread started and the destructor clears the flag during pass 0. -/
def exampleObserve (k : Nat) : QUdevPrivate :=
  if k = 0 then (addNewMonitorRule {} "block" "disk" "" "").2
  else requestStop (addNewMonitorRule {} "block" "disk" "" "").2

/-! ## Auxiliary facts about the string conversions -/

theorem flatMap_latin1Bytes_eq (l : List Char)
    (h : l.all (fun c => c.toNat != 0 && decide (c.toNat ≤ 0xFF)) = true) :
    l.flatMap latin1Bytes = l := by
  induction l with
  | nil => rfl
  | cons c rest ih =>
    simp only [List.all_cons, Bool.and_eq_true, decide_eq_true_eq] at h
    rw [List.flatMap_cons, ih h.2]
    simp [latin1Bytes, h.1.2]

theorem flatMap_utf8Bytes_eq (l : List Char)
    (h : l.all (fun c => c.toNat != 0 && decide (c.toNat ≤ 0x7F)) = true) :
    l.flatMap (fun c => (utf8Bytes c).map Char.ofNat) = l := by
  induction l with
  | nil => rfl
  | cons c rest ih =>
    simp only [List.all_cons, Bool.and_eq_true, decide_eq_true_eq] at h
    rw [List.flatMap_cons, ih h.2]
    simp [utf8Bytes, h.1.2, Char.ofNat_toNat]

theorem takeWhile_noNul_eq (l : List Char) (b : Nat)
    (h : l.all (fun c => c.toNat != 0 && decide (c.toNat ≤ b)) = true) :
    l.takeWhile (fun c => c.toNat != 0) = l := by
  induction l with
  | nil => rfl
  | cons c rest ih =>
    simp only [List.all_cons, Bool.and_eq_true, decide_eq_true_eq] at h
    rw [List.takeWhile_cons, ih h.2]
    simp [h.1.1]

theorem constData_toLatin1_eq (s : String) (h : isLatin1CString s = true) :
    constData (toLatin1 s) = s := by
  cases s with
  | mk data =>
    unfold isLatin1CString at h
    simp only [constData, toLatin1, flatMap_latin1Bytes_eq data h,
      takeWhile_noNul_eq data 0xFF h]

theorem constData_toUtf8_eq (s : String) (h : isAsciiCString s = true) :
    constData (toUtf8 s) = s := by
  cases s with
  | mk data =>
    unfold isAsciiCString at h
    simp only [constData, toUtf8, flatMap_utf8Bytes_eq data h,
      takeWhile_noNul_eq data 0x7F h]

/-! ## Auxiliary facts about the registry -/

theorem opEq_iff (a b : QUdevInternalWatcherEntry) : a.opEq b = true ↔ a = b := by
  cases a; cases b
  simp [QUdevInternalWatcherEntry.opEq, and_assoc]

theorem qlistContains_iff (l : List QUdevInternalWatcherEntry) (iwe : QUdevInternalWatcherEntry) :
    qlistContains l iwe = true ↔ iwe ∈ l := by
  simp only [qlistContains, List.any_eq_true, opEq_iff]
  constructor
  · rintro ⟨x, hx, rfl⟩
    exact hx
  · intro h
    exact ⟨iwe, h, rfl⟩

theorem qlistContains_eq_false_iff (l : List QUdevInternalWatcherEntry)
    (iwe : QUdevInternalWatcherEntry) : qlistContains l iwe = false ↔ iwe ∉ l := by
  rw [← qlistContains_iff, Bool.not_eq_true]

theorem qlistRemoveOne_append_self (l : List QUdevInternalWatcherEntry)
    (iwe : QUdevInternalWatcherEntry) (h : iwe ∉ l) : qlistRemoveOne (l ++ [iwe]) iwe = l := by
  induction l with
  | nil => simp [qlistRemoveOne, (opEq_iff iwe iwe).2 rfl]
  | cons e rest ih =>
    have hne : e.opEq iwe = false := by
      rw [← Bool.not_eq_true, opEq_iff]
      intro he
      exact h (by simp [he])
    have hrest : iwe ∉ rest := fun hm => h (List.mem_cons_of_mem _ hm)
    simp [qlistRemoveOne, hne, ih hrest]

theorem countP_opEq_of_not_mem (l : List QUdevInternalWatcherEntry)
    (iwe : QUdevInternalWatcherEntry) (h : iwe ∉ l) :
    l.countP (fun e => e.opEq iwe) = 0 := by
  rw [List.countP_eq_zero]
  intro e he hc
  exact h ((opEq_iff e iwe).1 hc ▸ he)

theorem reinstallFilters_entries (s : QUdevPrivate) :
    (reinstallFilters s).m_lMonitorEntries = s.m_lMonitorEntries := by
  have hfold : ∀ (l : List QUdevInternalWatcherEntry) (st : QUdevPrivate),
      (l.foldl (fun st iwe => { st with
        monitorFilters := st.monitorFilters ++
          [(constData (toLatin1 iwe.m_strSubsystem),
            constData (toLatin1 iwe.m_strDeviceType))] })
        st).m_lMonitorEntries = st.m_lMonitorEntries ∧
      (l.foldl (fun st iwe => { st with
        monitorFilters := st.monitorFilters ++
          [(constData (toLatin1 iwe.m_strSubsystem),
            constData (toLatin1 iwe.m_strDeviceType))] })
        st).threadRunning = st.threadRunning := by
    intro l
    induction l with
    | nil => intro st; simp
    | cons e rest ih => intro st; simp [ih]
  unfold reinstallFilters
  by_cases he : s.m_lMonitorEntries.isEmpty = false
  · simp only [he, if_true]
    split <;> simp [(hfold _ _).1]
  · simp [he]

theorem addNewMonitorRule_of_absent (s : QUdevPrivate) (sub ty psub pty : String)
    (h : qlistContains s.m_lMonitorEntries ⟨sub, ty, psub, pty⟩ = false) :
    addNewMonitorRule s sub ty psub pty
      = (true, reinstallFilters
          { s with m_lMonitorEntries := s.m_lMonitorEntries ++ [⟨sub, ty, psub, pty⟩] }) := by
  simp [addNewMonitorRule, h]

theorem addNewMonitorRule_of_present (s : QUdevPrivate) (sub ty psub pty : String)
    (h : qlistContains s.m_lMonitorEntries ⟨sub, ty, psub, pty⟩ = true) :
    addNewMonitorRule s sub ty psub pty = (false, s) := by
  simp [addNewMonitorRule, h]

theorem removeMonitorRule_of_absent (s : QUdevPrivate) (sub ty psub pty : String)
    (h : qlistContains s.m_lMonitorEntries ⟨sub, ty, psub, pty⟩ = false) :
    removeMonitorRule s sub ty psub pty = (false, s) := by
  simp [removeMonitorRule, h]

theorem removeMonitorRule_of_present (s : QUdevPrivate) (sub ty psub pty : String)
    (h : qlistContains s.m_lMonitorEntries ⟨sub, ty, psub, pty⟩ = true) :
    removeMonitorRule s sub ty psub pty
      = (true, reinstallFilters
          { s with m_lMonitorEntries :=
              qlistRemoveOne s.m_lMonitorEntries ⟨sub, ty, psub, pty⟩ }) := by
  simp [removeMonitorRule, h]

/-! ## Claims about the rule registry -/

/-- C2: in a state whose rule list does not contain R, adding R twice in a row
returns true and then false; the second call changes nothing, and the rule list
then holds exactly one entry equal to R. -/
theorem addNewMonitorRule_twice (s : QUdevPrivate) (sub ty psub pty : String)
    (h : qlistContains s.m_lMonitorEntries ⟨sub, ty, psub, pty⟩ = false) :
    (addNewMonitorRule s sub ty psub pty).1 = true ∧
    (addNewMonitorRule (addNewMonitorRule s sub ty psub pty).2 sub ty psub pty).1 = false ∧
    (addNewMonitorRule (addNewMonitorRule s sub ty psub pty).2 sub ty psub pty).2
      = (addNewMonitorRule s sub ty psub pty).2 ∧
    (addNewMonitorRule (addNewMonitorRule s sub ty psub pty).2
      sub ty psub pty).2.m_lMonitorEntries.countP
        (fun e => e.opEq ⟨sub, ty, psub, pty⟩) = 1 := by
  have hnot := (qlistContains_eq_false_iff _ _).1 h
  have hin : qlistContains (reinstallFilters
      { s with m_lMonitorEntries :=
          s.m_lMonitorEntries ++ [⟨sub, ty, psub, pty⟩] }).m_lMonitorEntries
      ⟨sub, ty, psub, pty⟩ = true := by
    rw [reinstallFilters_entries, qlistContains_iff]
    simp
  rw [addNewMonitorRule_of_absent s sub ty psub pty h]
  simp only [addNewMonitorRule_of_present _ sub ty psub pty hin]
  refine ⟨trivial, trivial, trivial, ?_⟩
  rw [reinstallFilters_entries]
  simp [List.countP_append, countP_opEq_of_not_mem _ _ hnot, List.countP_cons,
    (opEq_iff _ _).2 rfl]

/-- Witness for C2: on the freshly constructed object, rule (block, disk, usb, usb_device). -/
theorem addNewMonitorRule_twice_witness :
    qlistContains ({} : QUdevPrivate).m_lMonitorEntries
      ⟨"block", "disk", "usb", "usb_device"⟩ = false ∧
    (addNewMonitorRule {} "block" "disk" "usb" "usb_device").1 = true ∧
    (addNewMonitorRule (addNewMonitorRule {} "block" "disk" "usb" "usb_device").2
      "block" "disk" "usb" "usb_device").1 = false :=
  ⟨by decide,
   (addNewMonitorRule_twice {} "block" "disk" "usb" "usb_device" (by decide)).1,
   (addNewMonitorRule_twice {} "block" "disk" "usb" "usb_device" (by decide)).2.1⟩

/-- C3: in a state whose rule list does not contain R, the calls addRule(R),
removeRule(R), removeRule(R) return true, true, false. -/
theorem add_remove_remove (s : QUdevPrivate) (sub ty psub pty : String)
    (h : qlistContains s.m_lMonitorEntries ⟨sub, ty, psub, pty⟩ = false) :
    (addNewMonitorRule s sub ty psub pty).1 = true ∧
    (removeMonitorRule (addNewMonitorRule s sub ty psub pty).2 sub ty psub pty).1 = true ∧
    (removeMonitorRule
      (removeMonitorRule (addNewMonitorRule s sub ty psub pty).2 sub ty psub pty).2
      sub ty psub pty).1 = false := by
  have hnot := (qlistContains_eq_false_iff _ _).1 h
  have hin : qlistContains (reinstallFilters
      { s with m_lMonitorEntries :=
          s.m_lMonitorEntries ++ [⟨sub, ty, psub, pty⟩] }).m_lMonitorEntries
      ⟨sub, ty, psub, pty⟩ = true := by
    rw [reinstallFilters_entries, qlistContains_iff]
    simp
  rw [addNewMonitorRule_of_absent s sub ty psub pty h]
  simp only [removeMonitorRule_of_present _ sub ty psub pty hin]
  refine ⟨trivial, trivial, ?_⟩
  rw [removeMonitorRule_of_absent]
  rw [reinstallFilters_entries]
  simp only [reinstallFilters_entries]
  rw [qlistRemoveOne_append_self _ _ hnot]
  exact h

/-- Witness for C3: on the freshly constructed object, rule (block, disk, usb, usb_device). -/
theorem add_remove_remove_witness :
    qlistContains ({} : QUdevPrivate).m_lMonitorEntries
      ⟨"block", "disk", "usb", "usb_device"⟩ = false ∧
    (removeMonitorRule
      (removeMonitorRule (addNewMonitorRule {} "block" "disk" "usb" "usb_device").2
        "block" "disk" "usb" "usb_device").2
      "block" "disk" "usb" "usb_device").1 = false :=
  ⟨by decide, (add_remove_remove {} "block" "disk" "usb" "usb_device" (by decide)).2.2⟩

/-- C4: in a state whose rule list holds no entry equal to R, removeRule(R)
returns false and leaves the whole state, rule list and installed filters
included, unchanged. -/
theorem removeMonitorRule_absent (s : QUdevPrivate) (sub ty psub pty : String)
    (h : ∀ e ∈ s.m_lMonitorEntries, e.opEq ⟨sub, ty, psub, pty⟩ = false) :
    (removeMonitorRule s sub ty psub pty).1 = false ∧
    (removeMonitorRule s sub ty psub pty).2 = s ∧
    (removeMonitorRule s sub ty psub pty).2.m_lMonitorEntries = s.m_lMonitorEntries ∧
    (removeMonitorRule s sub ty psub pty).2.monitorFilters = s.monitorFilters := by
  have hc : qlistContains s.m_lMonitorEntries ⟨sub, ty, psub, pty⟩ = false := by
    rw [qlistContains, List.any_eq_false]
    intro e he
    simp [h e he]
  simp [removeMonitorRule, hc]

/-- Witness for C4: a registry holding the rule (block, disk), asked to remove
(block, partition). -/
theorem removeMonitorRule_absent_witness :
    (removeMonitorRule (addNewMonitorRule {} "block" "disk" "" "").2
      "block" "partition" "" "").1 = false ∧
    (removeMonitorRule (addNewMonitorRule {} "block" "disk" "" "").2
      "block" "partition" "" "").2 = (addNewMonitorRule {} "block" "disk" "" "").2 :=
  ⟨(removeMonitorRule_absent (addNewMonitorRule {} "block" "disk" "" "").2
      "block" "partition" "" "" (by decide)).1,
   (removeMonitorRule_absent (addNewMonitorRule {} "block" "disk" "" "").2
      "block" "partition" "" "" (by decide)).2.1⟩

/-! ## Claims about the action translation -/

theorem m_mUdevActions_eq :
    m_mUdevActions =
      [("add", QUdevEventAction.eDeviceAdd), ("remove", QUdevEventAction.eDeviceRemove),
       ("change", QUdevEventAction.eDeviceChange), ("online", QUdevEventAction.eDeviceOnline),
       ("offline", QUdevEventAction.eDeviceOffline)] := by
  decide

/-- C5: the action translation is a total function that sends "add", "remove",
"change", "online", "offline" to Add, Remove, Change, Online, Offline, and every
other string, among them the empty string, "resize" and differently cased
spellings such as "Add" and "ADD", to UnknownAction. -/
theorem getQUdevEventActionFromUdevAction_table :
    (∀ s : String, getQUdevEventActionFromUdevAction s =
      if s = "add" then QUdevEventAction.eDeviceAdd
      else if s = "remove" then QUdevEventAction.eDeviceRemove
      else if s = "change" then QUdevEventAction.eDeviceChange
      else if s = "online" then QUdevEventAction.eDeviceOnline
      else if s = "offline" then QUdevEventAction.eDeviceOffline
      else QUdevEventAction.eDeviceUnknownAction) ∧
    getQUdevEventActionFromUdevAction "" = QUdevEventAction.eDeviceUnknownAction ∧
    getQUdevEventActionFromUdevAction "resize" = QUdevEventAction.eDeviceUnknownAction ∧
    getQUdevEventActionFromUdevAction "Add" = QUdevEventAction.eDeviceUnknownAction ∧
    getQUdevEventActionFromUdevAction "ADD" = QUdevEventAction.eDeviceUnknownAction := by
  refine ⟨?_, by decide, by decide, by decide, by decide⟩
  intro s
  unfold getQUdevEventActionFromUdevAction
  rw [m_mUdevActions_eq]
  simp only [List.lookup]
  by_cases h1 : s = "add"
  · subst h1; decide
  by_cases h2 : s = "remove"
  · subst h2; decide
  by_cases h3 : s = "change"
  · subst h3; decide
  by_cases h4 : s = "online"
  · subst h4; decide
  by_cases h5 : s = "offline"
  · subst h5; decide
  have e1 : (s == "add") = false := by simpa using h1
  have e2 : (s == "remove") = false := by simpa using h2
  have e3 : (s == "change") = false := by simpa using h3
  have e4 : (s == "online") = false := by simpa using h4
  have e5 : (s == "offline") = false := by simpa using h5
  simp [e1, e2, e3, e4, e5, h1, h2, h3, h4, h5]

/-! ## Claims about the monitoring loop -/

theorem isEmpty_eq_false_iff (s : String) : s.isEmpty = false ↔ s ≠ "" := by
  rw [← Bool.not_eq_true, String.isEmpty_iff]

theorem parentWanted_eq_true_iff (a b : String) :
    (!a.isEmpty && !b.isEmpty) = true ↔ a ≠ "" ∧ b ≠ "" := by
  simp [isEmpty_eq_false_iff]

theorem parentWanted_eq_false_iff (a b : String) :
    (!a.isEmpty && !b.isEmpty) = false ↔ ¬ (a ≠ "" ∧ b ≠ "") := by
  rw [← parentWanted_eq_true_iff, Bool.not_eq_true]

theorem parent_isSome_iff (dev : UdevDevice) (subsystem devtype : String) :
    (udev_device_get_parent_with_subsystem_devtype (some dev) subsystem devtype).isSome = true
      ↔ hasAncestor dev subsystem devtype := by
  simp [udev_device_get_parent_with_subsystem_devtype, hasAncestor, nodeHasSubsystemDevtype,
    List.find?_isSome]

theorem runRule_of_match (dev : UdevDevice) (st : DispatchState) (r : QUdevInternalWatcherEntry)
    (hc1 : constData (toLatin1 r.m_strParentSubSystem) = r.m_strParentSubSystem)
    (hc2 : constData (toLatin1 r.m_strParentDeviceType) = r.m_strParentDeviceType)
    (h : ruleMatches dev r) :
    ∃ d, (runRule dev st r).emitted = st.emitted ++ [fillEvent dev r d] := by
  obtain ⟨h1, h2, h3⟩ := h
  by_cases hp : r.m_strParentSubSystem ≠ "" ∧ r.m_strParentDeviceType ≠ ""
  · have hanc := (parent_isSome_iff dev _ _).2 (h3 hp)
    obtain ⟨p, hpar⟩ := Option.isSome_iff_exists.1 hanc
    have hw := (parentWanted_eq_true_iff _ _).2 hp
    refine ⟨p, ?_⟩
    simp [runRule, h1, h2, hw, hc1, hc2, hpar]
  · have hw := (parentWanted_eq_false_iff _ _).2 hp
    refine ⟨match st.parent_dev with | some p => p | none => dev.node, ?_⟩
    simp [runRule, h1, h2, hw]

theorem runRule_of_no_match (dev : UdevDevice) (st : DispatchState)
    (r : QUdevInternalWatcherEntry)
    (hc1 : constData (toLatin1 r.m_strParentSubSystem) = r.m_strParentSubSystem)
    (hc2 : constData (toLatin1 r.m_strParentDeviceType) = r.m_strParentDeviceType)
    (h : ¬ ruleMatches dev r) :
    (runRule dev st r).emitted = st.emitted := by
  unfold ruleMatches at h
  by_cases h1 : r.m_strSubsystem = fromLatin1 dev.node.subsystem
  · by_cases h2 : r.m_strDeviceType = fromLatin1 dev.node.devtype
    · have h3 : (r.m_strParentSubSystem ≠ "" ∧ r.m_strParentDeviceType ≠ "") ∧
          ¬ hasAncestor dev r.m_strParentSubSystem r.m_strParentDeviceType := by
        by_contra hc
        apply h
        refine ⟨h1, h2, fun hp => ?_⟩
        by_contra hn
        exact hc ⟨hp, hn⟩
      have hnone : udev_device_get_parent_with_subsystem_devtype (some dev)
          r.m_strParentSubSystem r.m_strParentDeviceType = none := by
        rw [← Option.not_isSome_iff_eq_none, parent_isSome_iff]
        exact h3.2
      have hw := (parentWanted_eq_true_iff _ _).2 h3.1
      simp [runRule, h1, h2, hw, hc1, hc2, hnone]
    · simp [runRule, h1, h2]
  · simp [runRule, h1]

theorem foldl_runRule (dev : UdevDevice) (rules : List QUdevInternalWatcherEntry)
    (hclean : ∀ r ∈ rules, isLatin1CString r.m_strParentSubSystem = true ∧
      isLatin1CString r.m_strParentDeviceType = true) :
    ∀ st : DispatchState, ∃ new : List QUdevEvent,
      (rules.foldl (runRule dev) st).emitted = st.emitted ++ new ∧
      List.Forall₂ (eventIsFor dev) (rules.filter (fun r => decide (ruleMatches dev r))) new := by
  induction rules with
  | nil => intro st; exact ⟨[], by simp, by simp⟩
  | cons r rest ih =>
    intro st
    have hr := hclean r (List.mem_cons_self _ _)
    have hc1 := constData_toLatin1_eq _ hr.1
    have hc2 := constData_toLatin1_eq _ hr.2
    obtain ⟨new, hnew, hall⟩ :=
      ih (fun x hx => hclean x (List.mem_cons_of_mem _ hx)) (runRule dev st r)
    by_cases hm : ruleMatches dev r
    · obtain ⟨d, hd⟩ := runRule_of_match dev st r hc1 hc2 hm
      refine ⟨fillEvent dev r d :: new, ?_, ?_⟩
      · simp [List.foldl_cons, hnew, hd]
      · simp only [List.filter_cons, hm, decide_True, if_true]
        exact List.Forall₂.cons ⟨rfl, rfl, rfl⟩ hall
    · refine ⟨new, ?_, ?_⟩
      · simp [List.foldl_cons, hnew, runRule_of_no_match dev st r hc1 hc2 hm]
      · simpa [List.filter_cons, hm] using hall

/-- C1, amended: take a rule list whose parent subsystem and parent device type
strings consist of Latin-1 characters other than NUL, cut anywhere into an
initial part and a rest. One pass of the monitoring loop that receives a
notification delivers, after the events delivered before, first what it delivers
for the initial part alone and then the events of the rest: one Event per matching
rule of each part, in the order of the rule list, and nothing else. Each Event
carries the action translated from the notification's raw action string and the
subsystem and device type of its rule. A rule matches when its subsystem and its
device type equal the notification's as strings and, if its parent subsystem and
parent device type are both non-empty, the notification device has an ancestor
with that subsystem and type. -/
theorem runIteration_delivers_in_rule_order (s : QUdevPrivate) (dev : UdevDevice)
    (rest : List (Option UdevDevice)) (delivered : List QUdevEvent) (slept : Nat)
    (initial remaining : List QUdevInternalWatcherEntry)
    (hrules : s.m_lMonitorEntries = initial ++ remaining)
    (hclean : ∀ r ∈ s.m_lMonitorEntries, isLatin1CString r.m_strParentSubSystem = true ∧
      isLatin1CString r.m_strParentDeviceType = true) :
    ∃ early late : List QUdevEvent,
      (runIteration s { pending := some dev :: rest, delivered := delivered,
                        sleptMs := slept }).delivered = delivered ++ (early ++ late) ∧
      (runIteration { s with m_lMonitorEntries := initial }
        { pending := some dev :: rest, delivered := delivered,
          sleptMs := slept }).delivered = delivered ++ early ∧
      List.Forall₂ (eventIsFor dev)
        (initial.filter (fun r => decide (ruleMatches dev r))) early ∧
      List.Forall₂ (eventIsFor dev)
        (remaining.filter (fun r => decide (ruleMatches dev r))) late ∧
      List.Forall₂ (eventIsFor dev)
        (s.m_lMonitorEntries.filter (fun r => decide (ruleMatches dev r))) (early ++ late) := by
  rw [hrules] at hclean
  obtain ⟨early, hearly, hallEarly⟩ :=
    foldl_runRule dev initial (fun r hr => hclean r (List.mem_append_left _ hr))
      { parent_dev := none, emitted := [] }
  obtain ⟨late, hlate, hallLate⟩ :=
    foldl_runRule dev remaining (fun r hr => hclean r (List.mem_append_right _ hr))
      (initial.foldl (runRule dev) { parent_dev := none, emitted := [] })
  refine ⟨early, late, ?_, ?_, hallEarly, hallLate, ?_⟩
  · simp [runIteration, dispatch, hrules, List.foldl_append, hlate, hearly]
  · simp [runIteration, dispatch, hearly]
  · rw [hrules, List.filter_append]
    exact List.rel_append hallEarly hallLate

/-- Witness for C1: the rules (block, disk, usb, usb_device) and (block, disk), cut
after the first, and a notification for a USB disk. -/
theorem runIteration_delivers_in_rule_order_witness :
    (addNewMonitorRule (addNewMonitorRule {} "block" "disk" "usb" "usb_device").2
      "block" "disk" "" "").2.m_lMonitorEntries
      = [⟨"block", "disk", "usb", "usb_device"⟩] ++ [⟨"block", "disk", "", ""⟩] ∧
    ∃ early late : List QUdevEvent,
      (runIteration
        (addNewMonitorRule (addNewMonitorRule {} "block" "disk" "usb" "usb_device").2
          "block" "disk" "" "").2
        { pending := some exampleUsbDisk :: [], delivered := [],
          sleptMs := 0 }).delivered = [] ++ (early ++ late) ∧
      (runIteration
        { (addNewMonitorRule (addNewMonitorRule {} "block" "disk" "usb" "usb_device").2
            "block" "disk" "" "").2 with
          m_lMonitorEntries := [⟨"block", "disk", "usb", "usb_device"⟩] }
        { pending := some exampleUsbDisk :: [], delivered := [],
          sleptMs := 0 }).delivered = [] ++ early ∧
      List.Forall₂ (eventIsFor exampleUsbDisk)
        ([(⟨"block", "disk", "usb", "usb_device"⟩ : QUdevInternalWatcherEntry)].filter
          (fun r => decide (ruleMatches exampleUsbDisk r))) early ∧
      List.Forall₂ (eventIsFor exampleUsbDisk)
        ([(⟨"block", "disk", "", ""⟩ : QUdevInternalWatcherEntry)].filter
          (fun r => decide (ruleMatches exampleUsbDisk r))) late ∧
      List.Forall₂ (eventIsFor exampleUsbDisk)
        ((addNewMonitorRule (addNewMonitorRule {} "block" "disk" "usb" "usb_device").2
          "block" "disk" "" "").2.m_lMonitorEntries.filter
            (fun r => decide (ruleMatches exampleUsbDisk r))) (early ++ late) :=
  ⟨by decide,
   runIteration_delivers_in_rule_order
     (addNewMonitorRule (addNewMonitorRule {} "block" "disk" "usb" "usb_device").2
       "block" "disk" "" "").2
     exampleUsbDisk [] [] 0
     [⟨"block", "disk", "usb", "usb_device"⟩] [⟨"block", "disk", "", ""⟩]
     (by decide) (by decide)⟩

/-- C1, counterexample: the rule (block, disk, "usb" NUL "x", usb_device) does not
match a notification for a USB disk in the sense of the claim, since no ancestor
has a subsystem of that name, yet the loop delivers an Event for it: the
program hands the parent subsystem to the device source as a C string, which
ends at the NUL. -/
theorem run_delivers_for_truncated_parent_subsystem :
    [(⟨"block", "disk", "usb\x00x", "usb_device"⟩ : QUdevInternalWatcherEntry)].filter
      (fun r => decide (ruleMatches exampleUsbDisk r)) = [] ∧
    (runIteration (addNewMonitorRule {} "block" "disk" "usb\x00x" "usb_device").2
      { pending := [some exampleUsbDisk] }).delivered
      = [fillEvent exampleUsbDisk ⟨"block", "disk", "usb\x00x", "usb_device"⟩
          exampleUsbParent] := by
  refine ⟨by decide, by decide⟩

/-- C6: evaluation at the failing input. After adding the rules (block, disk, usb,
usb_device) and (block, disk) in this order, one notification for a USB disk
delivers two Events, and the Event of the second rule, which asks for no parent
matching, carries the attributes of the USB parent found for the first rule
(vendor id "0781"); with the second rule alone the Event carries the attributes
of the notification device itself (vendor id empty). -/
theorem run_keeps_parent_of_earlier_rule :
    (runIteration
      (addNewMonitorRule (addNewMonitorRule {} "block" "disk" "usb" "usb_device").2
        "block" "disk" "" "").2
      { pending := [some exampleUsbDisk] }).delivered
      = [fillEvent exampleUsbDisk ⟨"block", "disk", "usb", "usb_device"⟩ exampleUsbParent,
         fillEvent exampleUsbDisk ⟨"block", "disk", "", ""⟩ exampleUsbParent] ∧
    (runIteration (addNewMonitorRule {} "block" "disk" "" "").2
      { pending := [some exampleUsbDisk] }).delivered
      = [fillEvent exampleUsbDisk ⟨"block", "disk", "", ""⟩ exampleUsbDisk.node] ∧
    (fillEvent exampleUsbDisk ⟨"block", "disk", "", ""⟩ exampleUsbParent).m_udDev.m_strVendorID
      = "0781" ∧
    (fillEvent exampleUsbDisk ⟨"block", "disk", "", ""⟩ exampleUsbDisk.node).m_udDev.m_strVendorID
      = "" := by
  refine ⟨by decide, by decide, by decide, by decide⟩

/-! ## Claims about device enumeration -/

theorem fromLatin1_some (t : String) : fromLatin1 (some t) = t := rfl

theorem isEmpty_eq_decide (s : String) : s.isEmpty = decide (s = "") := by
  rw [Bool.eq_iff_iff]
  simp [String.isEmpty_iff]

theorem parent_find_eq (dev : UdevDevice) (subsystem devtype : String) :
    udev_device_get_parent_with_subsystem_devtype (some dev) subsystem devtype
      = dev.ancestors.find?
          (fun p => decide (p.subsystem = some subsystem ∧ p.devtype = some devtype)) := by
  show dev.ancestors.find? (nodeHasSubsystemDevtype subsystem devtype) = _
  congr 1
  funext p
  rw [Bool.eq_iff_iff]
  simp [nodeHasSubsystemDevtype]

theorem enumerateEntry_devices (src : DeviceSource) (sub ty psub pty : String)
    (acc : List QUdevDevice × List UdevCall) (name : String)
    (hname : constData (toLatin1 name) = name)
    (hc1 : constData (toLatin1 psub) = psub) (hc2 : constData (toLatin1 pty) = pty) :
    (enumerateEntry src sub ty psub pty acc name).1
      = acc.1 ++ (enumerateCandidate src sub ty psub pty name).toList := by
  unfold enumerateEntry enumerateCandidate
  simp only [fromLatin1_some, isEmpty_eq_decide, hname, hc1, hc2]
  cases hdev : src.deviceNewFromSyspath name with
  | none =>
    by_cases hty : ty = ""
    · simp [hty, udev_device_get_parent_with_subsystem_devtype]
    · have hne : ¬ fromLatin1 none = ty := fun h => hty h.symm
      simp [hty, udev_device_get_devtype, hne]
  | some cand =>
    simp only [parent_find_eq, udev_device_get_devtype, udev_device_get_devnode,
      Option.bind, Option.map]
    by_cases hty : ty = "" <;> by_cases hdt : fromLatin1 cand.node.devtype = ty <;>
      by_cases ha : psub = "" <;> by_cases hb : pty = "" <;>
      cases hfind : cand.ancestors.find?
        (fun p => decide (p.subsystem = some psub ∧ p.devtype = some pty)) <;>
      simp [hty, hdt, ha, hb, hfind, deviceRecord]

theorem foldl_enumerateEntry_devices (src : DeviceSource) (sub ty psub pty : String)
    (hc1 : constData (toLatin1 psub) = psub) (hc2 : constData (toLatin1 pty) = pty)
    (names : List String) (hnames : ∀ name ∈ names, isLatin1CString name = true) :
    ∀ acc : List QUdevDevice × List UdevCall,
      (names.foldl (enumerateEntry src sub ty psub pty) acc).1
        = acc.1 ++ names.filterMap (enumerateCandidate src sub ty psub pty) := by
  induction names with
  | nil => intro acc; simp
  | cons name rest ih =>
    intro acc
    have hname := constData_toLatin1_eq name (hnames name (List.mem_cons_self _ _))
    rw [List.foldl_cons, ih (fun x hx => hnames x (List.mem_cons_of_mem _ hx)),
      enumerateEntry_devices src sub ty psub pty acc name hname hc1 hc2]
    cases h : enumerateCandidate src sub ty psub pty name <;>
      simp [List.filterMap_cons, h]

/-- C7, amended: let the subsystem be non-empty and made of ASCII characters other
than NUL, let the parent subsystem and parent device type be made of Latin-1
characters other than NUL, and let the device source list C strings as sysfs
paths. Then the enumeration returns, in the device source's enumeration order,
one Device per candidate that gave a usable handle, whose device type equals a
non-empty `deviceType` (any type for an empty one) and which, when both parent
fields are non-empty, has an ancestor with that subsystem and type; all other
candidates are left out. Each Device carries the candidate's sysfs path and
device node path and the attributes of the matched device: the qualifying
ancestor under parent matching, the candidate itself otherwise. -/
theorem getUDevDevicesForSubsystem_eq_spec (src : DeviceSource) (sub ty psub pty : String)
    (h : sub ≠ "") (hsub : isAsciiCString sub = true)
    (hpsub : isLatin1CString psub = true) (hpty : isLatin1CString pty = true)
    (hnames : ∀ name ∈ src.scanSubsystem sub, isLatin1CString name = true) :
    (getUDevDevicesForSubsystem src sub ty psub pty).1
      = enumerateDevicesSpec src sub ty psub pty := by
  have he : sub.isEmpty = false := (isEmpty_eq_false_iff sub).2 h
  have hs := constData_toUtf8_eq sub hsub
  have hc1 := constData_toLatin1_eq psub hpsub
  have hc2 := constData_toLatin1_eq pty hpty
  simp [getUDevDevicesForSubsystem, he, hs,
    foldl_enumerateEntry_devices src sub ty psub pty hc1 hc2 _ hnames, enumerateDevicesSpec]

/-- Witness for C7: the disks of subsystem "block" that sit on a USB device; the
vanished path and the partition are left out and the disk carries the USB
device's attributes. -/
theorem getUDevDevicesForSubsystem_eq_spec_witness :
    "block" ≠ "" ∧ isAsciiCString "block" = true ∧
    isLatin1CString "usb" = true ∧ isLatin1CString "usb_device" = true ∧
    (∀ name ∈ exampleSource.scanSubsystem "block", isLatin1CString name = true) ∧
    (getUDevDevicesForSubsystem exampleSource "block" "disk" "usb" "usb_device").1
      = enumerateDevicesSpec exampleSource "block" "disk" "usb" "usb_device" ∧
    enumerateDevicesSpec exampleSource "block" "disk" "usb" "usb_device"
      = [deviceRecord exampleUsbDisk.node.syspath exampleUsbDisk "block" "disk"
          exampleUsbParent] :=
  ⟨by decide, by decide, by decide, by decide, by decide,
   getUDevDevicesForSubsystem_eq_spec exampleSource "block" "disk" "usb" "usb_device"
     (by decide) (by decide) (by decide) (by decide) (by decide),
   by decide⟩

/-- C7, counterexample: asked for the disks of subsystem "block" with a parent of
subsystem "usb" NUL "x", the enumeration returns the USB disk, which has no
ancestor with a subsystem of that name: the program hands the parent subsystem
to the device source as a C string, which ends at the NUL. -/
theorem getUDevDevicesForSubsystem_truncated_parent_subsystem :
    (getUDevDevicesForSubsystem exampleSource "block" "disk" "usb\x00x" "usb_device").1
      = [deviceRecord exampleUsbDisk.node.syspath exampleUsbDisk "block" "disk"
          exampleUsbParent] ∧
    enumerateDevicesSpec exampleSource "block" "disk" "usb\x00x" "usb_device" = [] := by
  refine ⟨by decide, by decide⟩

/-- C8: with an empty subsystem the enumeration returns the empty list, whatever
the other three arguments are, and queries the device source not at all: the
only library call made is the allocation of the enumeration context, no scan and
no device lookup. -/
theorem getUDevDevicesForSubsystem_empty_subsystem (src : DeviceSource)
    (ty psub pty : String) :
    (getUDevDevicesForSubsystem src "" ty psub pty).1 = [] ∧
    (getUDevDevicesForSubsystem src "" ty psub pty).2 = [UdevCall.enumerate_new] ∧
    ((getUDevDevicesForSubsystem src "" ty psub pty).2.filter UdevCall.isQuery).length = 0 := by
  have he : "".isEmpty = true := by decide
  simp [getUDevDevicesForSubsystem, he, UdevCall.isQuery]

/-! ## Points where the code departs from its documentation -/

/-- C9: evaluation at the failing input. On the freshly constructed object
addNewMonitorRule with an empty subsystem returns true and stores the rule, and
removeMonitorRule with the same arguments then returns true as well. -/
theorem addNewMonitorRule_accepts_empty_subsystem :
    (addNewMonitorRule {} "" "disk" "" "").1 = true ∧
    (addNewMonitorRule {} "" "disk" "" "").2.m_lMonitorEntries = [⟨"", "disk", "", ""⟩] ∧
    (removeMonitorRule (addNewMonitorRule {} "" "disk" "" "").2 "" "disk" "" "").1 = true ∧
    (removeMonitorRule (addNewMonitorRule {} "" "disk" "" "").2
      "" "disk" "" "").2.m_lMonitorEntries = [] := by
  refine ⟨by decide, by decide, by decide, by decide⟩

/-- C10: evaluation at the failing input. The rule (block, empty device type),
added through addNewMonitorRule, delivers no Event for a notification of
subsystem "block" and device type "disk"; it does deliver one when the
notification's device type is unset. -/
theorem empty_deviceType_rule_misses_typed_device :
    (runIteration (addNewMonitorRule {} "block" "" "" "").2
      { pending := [some exampleUsbDisk] }).delivered = [] ∧
    (runIteration (addNewMonitorRule {} "block" "" "" "").2
      { pending := [some { exampleUsbDisk with
          node := { exampleUsbDisk.node with devtype := none } }] }).delivered
      = [fillEvent exampleUsbDisk ⟨"block", "", "", ""⟩ exampleUsbDisk.node] := by
  refine ⟨by decide, by decide⟩

/-! ## Invariants of the registry -/

theorem qlistRemoveOne_eq_erase (l : List QUdevInternalWatcherEntry)
    (iwe : QUdevInternalWatcherEntry) : qlistRemoveOne l iwe = l.erase iwe := by
  induction l with
  | nil => rfl
  | cons e rest ih =>
    rw [qlistRemoveOne, List.erase_cons, ih]
    by_cases h : e = iwe
    · simp [h, (opEq_iff iwe iwe).2 rfl]
    · have hf : e.opEq iwe = false := by
        rw [← Bool.not_eq_true, opEq_iff]
        exact h
      simp [h, hf]

theorem foldl_filters (l : List QUdevInternalWatcherEntry) :
    ∀ st : QUdevPrivate,
      l.foldl (fun st iwe => { st with
        monitorFilters := st.monitorFilters ++
          [(constData (toLatin1 iwe.m_strSubsystem),
            constData (toLatin1 iwe.m_strDeviceType))] }) st
      = { st with monitorFilters := st.monitorFilters ++ l.map filterPair } := by
  induction l with
  | nil => intro st; simp
  | cons e rest ih => intro st; simp [ih, filterPair]

theorem reinstallFilters_filters (s : QUdevPrivate) :
    (reinstallFilters s).monitorFilters = s.m_lMonitorEntries.map filterPair := by
  unfold reinstallFilters
  cases h : s.m_lMonitorEntries with
  | nil => simp
  | cons e rest =>
    simp only [List.isEmpty_cons, if_true, foldl_filters]
    split <;> simp

theorem reinstallFilters_flag (s : QUdevPrivate) :
    (reinstallFilters s).m_bMonitoringActive
      = (s.m_bMonitoringActive || !s.m_lMonitorEntries.isEmpty) := by
  unfold reinstallFilters
  cases h : s.m_lMonitorEntries with
  | nil => simp
  | cons e rest =>
    simp only [List.isEmpty_cons, if_true, foldl_filters]
    split <;> simp

theorem reinstallFilters_thread (s : QUdevPrivate) :
    (reinstallFilters s).threadRunning
      = (s.threadRunning || !s.m_lMonitorEntries.isEmpty) := by
  unfold reinstallFilters
  cases h : s.m_lMonitorEntries with
  | nil => simp
  | cons e rest =>
    simp only [List.isEmpty_cons, if_true, foldl_filters]
    split <;> simp_all

theorem registryInv_init : RegistryInv {} := by
  simp [RegistryInv]

theorem registryInv_reinstall (s : QUdevPrivate) (hn : s.m_lMonitorEntries.Nodup)
    (ht : s.threadRunning = s.m_bMonitoringActive) : RegistryInv (reinstallFilters s) := by
  refine ⟨?_, ?_, ?_, ?_⟩
  · rw [reinstallFilters_entries]; exact hn
  · rw [reinstallFilters_filters, reinstallFilters_entries]
  · rw [reinstallFilters_entries, reinstallFilters_flag]
    intro hne
    cases h : s.m_lMonitorEntries with
    | nil => exact absurd h hne
    | cons e rest => simp
  · rw [reinstallFilters_thread, reinstallFilters_flag, ht]

theorem registryInv_add (s : QUdevPrivate) (sub ty psub pty : String) (h : RegistryInv s) :
    RegistryInv (addNewMonitorRule s sub ty psub pty).2 := by
  cases hc : qlistContains s.m_lMonitorEntries ⟨sub, ty, psub, pty⟩ with
  | true => rw [addNewMonitorRule_of_present s sub ty psub pty hc]; exact h
  | false =>
    rw [addNewMonitorRule_of_absent s sub ty psub pty hc]
    have hnot := (qlistContains_eq_false_iff _ _).1 hc
    apply registryInv_reinstall
    · show (s.m_lMonitorEntries ++ [_]).Nodup
      rw [List.nodup_append]
      refine ⟨h.1, List.nodup_singleton _, ?_⟩
      intro x hx hx2
      rw [List.mem_singleton] at hx2
      exact hnot (hx2 ▸ hx)
    · exact h.2.2.2

theorem registryInv_remove (s : QUdevPrivate) (sub ty psub pty : String) (h : RegistryInv s) :
    RegistryInv (removeMonitorRule s sub ty psub pty).2 := by
  cases hc : qlistContains s.m_lMonitorEntries ⟨sub, ty, psub, pty⟩ with
  | false => rw [removeMonitorRule_of_absent s sub ty psub pty hc]; exact h
  | true =>
    rw [removeMonitorRule_of_present s sub ty psub pty hc]
    apply registryInv_reinstall
    · show (qlistRemoveOne s.m_lMonitorEntries _).Nodup
      rw [qlistRemoveOne_eq_erase]
      exact h.1.erase _
    · exact h.2.2.2

theorem registryInv_applyCalls (calls : List RegistryCall) :
    ∀ s : QUdevPrivate, RegistryInv s → RegistryInv (applyCalls s calls) := by
  induction calls with
  | nil => intro s h; exact h
  | cons c rest ih =>
    intro s h
    show RegistryInv (applyCalls (applyCall s c) rest)
    apply ih
    cases c with
    | addRule a b c d => exact registryInv_add s a b c d h
    | removeRule a b c d => exact registryInv_remove s a b c d h

theorem registryInv_reachable (calls : List RegistryCall) :
    RegistryInv (applyCalls {} calls) :=
  registryInv_applyCalls calls {} registryInv_init

/-- C11: in every state reached from the freshly constructed object by calls of
addRule and removeRule, no two entries of the rule list are equal (agree in all
four fields); addRule leaves the list as it is when the rule is present and
otherwise appends the rule at the end; removeRule deletes the rule and keeps the
remaining entries in their order. -/
theorem reachable_rules_distinct_and_ordered (calls : List RegistryCall)
    (sub ty psub pty : String) :
    (applyCalls {} calls).m_lMonitorEntries.Pairwise
      (fun a b => ¬ (a.m_strSubsystem = b.m_strSubsystem ∧
        a.m_strDeviceType = b.m_strDeviceType ∧
        a.m_strParentSubSystem = b.m_strParentSubSystem ∧
        a.m_strParentDeviceType = b.m_strParentDeviceType)) ∧
    (addNewMonitorRule (applyCalls {} calls) sub ty psub pty).2.m_lMonitorEntries
      = (if (⟨sub, ty, psub, pty⟩ : QUdevInternalWatcherEntry)
            ∈ (applyCalls {} calls).m_lMonitorEntries
          then (applyCalls {} calls).m_lMonitorEntries
          else (applyCalls {} calls).m_lMonitorEntries ++ [⟨sub, ty, psub, pty⟩]) ∧
    (removeMonitorRule (applyCalls {} calls) sub ty psub pty).2.m_lMonitorEntries
      = (applyCalls {} calls).m_lMonitorEntries.filter
          (fun e => decide (e ≠ ⟨sub, ty, psub, pty⟩)) ∧
    List.Sublist (removeMonitorRule (applyCalls {} calls) sub ty psub pty).2.m_lMonitorEntries
      (applyCalls {} calls).m_lMonitorEntries := by
  have hinv := registryInv_reachable calls
  have hrem : (removeMonitorRule (applyCalls {} calls) sub ty psub pty).2.m_lMonitorEntries
      = (applyCalls {} calls).m_lMonitorEntries.erase ⟨sub, ty, psub, pty⟩ := by
    cases hc : qlistContains (applyCalls {} calls).m_lMonitorEntries ⟨sub, ty, psub, pty⟩ with
    | false =>
      rw [removeMonitorRule_of_absent _ sub ty psub pty hc]
      exact (List.erase_of_not_mem ((qlistContains_eq_false_iff _ _).1 hc)).symm
    | true =>
      rw [removeMonitorRule_of_present _ sub ty psub pty hc, reinstallFilters_entries]
      exact qlistRemoveOne_eq_erase _ _
  refine ⟨?_, ?_, ?_, ?_⟩
  · refine List.Pairwise.imp ?_ hinv.1
    intro a b hab hfields
    apply hab
    cases a; cases b
    simp only [QUdevInternalWatcherEntry.mk.injEq]
    exact hfields
  · cases hc : qlistContains (applyCalls {} calls).m_lMonitorEntries ⟨sub, ty, psub, pty⟩ with
    | false =>
      rw [addNewMonitorRule_of_absent _ sub ty psub pty hc, reinstallFilters_entries,
        if_neg ((qlistContains_eq_false_iff _ _).1 hc)]
    | true =>
      rw [addNewMonitorRule_of_present _ sub ty psub pty hc,
        if_pos ((qlistContains_iff _ _).1 hc)]
  · rw [hrem, hinv.1.erase_eq_filter]
    congr 1
    funext e
    by_cases he : e = ⟨sub, ty, psub, pty⟩ <;> simp [bne, he]
  · rw [hrem]
    exact List.erase_sublist _ _

/-- C12, amended: in every state reached from the freshly constructed object by
calls of addRule and removeRule, the filter list installed on the monitor is the
list of (subsystem, device type) pairs of the rule list, in the same order, each
string as the program hands it to the device source (converted to Latin-1 and
read as a C string); when the subsystem and device type strings of the rules
consist of Latin-1 characters other than NUL, it is the list of those pairs
themselves. It is empty whenever the rule list is, as after adding one rule and
removing it. -/
theorem reachable_filters_mirror_rules (calls : List RegistryCall) :
    (applyCalls {} calls).monitorFilters
      = (applyCalls {} calls).m_lMonitorEntries.map
          (fun e => (constData (toLatin1 e.m_strSubsystem),
            constData (toLatin1 e.m_strDeviceType))) ∧
    ((∀ e ∈ (applyCalls {} calls).m_lMonitorEntries,
        isLatin1CString e.m_strSubsystem = true ∧ isLatin1CString e.m_strDeviceType = true) →
      (applyCalls {} calls).monitorFilters
        = (applyCalls {} calls).m_lMonitorEntries.map
            (fun e => (e.m_strSubsystem, e.m_strDeviceType))) ∧
    (applyCalls {} [RegistryCall.addRule "block" "disk" "" ""]).monitorFilters
      = [("block", "disk")] ∧
    (applyCalls {} [RegistryCall.addRule "block" "disk" "" "",
      RegistryCall.removeRule "block" "disk" "" ""]).monitorFilters = [] := by
  have hinv := (registryInv_reachable calls).2.1
  refine ⟨hinv, ?_, by decide, by decide⟩
  intro hclean
  rw [hinv]
  apply List.map_congr_left
  intro e he
  simp only [filterPair, constData_toLatin1_eq _ (hclean e he).1,
    constData_toLatin1_eq _ (hclean e he).2]

/-- Witness for C12: after addRule (block, disk) and addRule (block, partition)
the installed filters are those two pairs. -/
theorem reachable_filters_mirror_rules_witness :
    (∀ e ∈ (applyCalls {} [RegistryCall.addRule "block" "disk" "" "",
        RegistryCall.addRule "block" "partition" "usb" "usb_device"]).m_lMonitorEntries,
      isLatin1CString e.m_strSubsystem = true ∧ isLatin1CString e.m_strDeviceType = true) ∧
    (applyCalls {} [RegistryCall.addRule "block" "disk" "" "",
      RegistryCall.addRule "block" "partition" "usb" "usb_device"]).monitorFilters
      = (applyCalls {} [RegistryCall.addRule "block" "disk" "" "",
          RegistryCall.addRule "block" "partition" "usb" "usb_device"]).m_lMonitorEntries.map
            (fun e => (e.m_strSubsystem, e.m_strDeviceType)) :=
  ⟨by decide,
   (reachable_filters_mirror_rules [RegistryCall.addRule "block" "disk" "" "",
      RegistryCall.addRule "block" "partition" "usb" "usb_device"]).2.1 (by decide)⟩

/-- C12, counterexample: after addRule with the subsystem "block" NUL "x" the
installed filter is (block, disk), not the pair of the rule's own strings: the
program hands the subsystem to the device source as a C string, which ends at
the NUL. -/
theorem filters_differ_for_truncated_subsystem :
    (applyCalls {} [RegistryCall.addRule "block\x00x" "disk" "" ""]).monitorFilters
      = [("block", "disk")] ∧
    (applyCalls {} [RegistryCall.addRule "block\x00x" "disk" "" ""]).m_lMonitorEntries.map
        (fun e => (e.m_strSubsystem, e.m_strDeviceType))
      = [("block\x00x", "disk")] ∧
    (applyCalls {} [RegistryCall.addRule "block\x00x" "disk" "" ""]).monitorFilters
      ≠ (applyCalls {} [RegistryCall.addRule "block\x00x" "disk" "" ""]).m_lMonitorEntries.map
          (fun e => (e.m_strSubsystem, e.m_strDeviceType)) := by
  refine ⟨by decide, by decide, by decide⟩

/-- C13: in every state reached from the freshly constructed object by calls of
addRule and removeRule, a non-empty rule list has the running flag set; a set
flag stays set across removeRule; and removing the only rule leaves an empty rule
list with the flag set and the thread running. -/
theorem reachable_running_flag (calls : List RegistryCall) (sub ty psub pty : String) :
    ((applyCalls {} calls).m_lMonitorEntries ≠ [] →
      (applyCalls {} calls).m_bMonitoringActive = true) ∧
    ((applyCalls {} calls).m_bMonitoringActive = true →
      (removeMonitorRule (applyCalls {} calls) sub ty psub pty).2.m_bMonitoringActive = true) ∧
    ((applyCalls {} calls).m_lMonitorEntries = [⟨sub, ty, psub, pty⟩] →
      (removeMonitorRule (applyCalls {} calls) sub ty psub pty).1 = true ∧
      (removeMonitorRule (applyCalls {} calls) sub ty psub pty).2.m_lMonitorEntries = [] ∧
      (removeMonitorRule (applyCalls {} calls) sub ty psub pty).2.m_bMonitoringActive = true ∧
      (removeMonitorRule (applyCalls {} calls) sub ty psub pty).2.threadRunning = true) := by
  have hinv := registryInv_reachable calls
  have hkeep : (applyCalls {} calls).m_bMonitoringActive = true →
      (removeMonitorRule (applyCalls {} calls) sub ty psub pty).2.m_bMonitoringActive = true := by
    intro hflag
    cases hc : qlistContains (applyCalls {} calls).m_lMonitorEntries ⟨sub, ty, psub, pty⟩ with
    | false => rw [removeMonitorRule_of_absent _ sub ty psub pty hc]; exact hflag
    | true =>
      rw [removeMonitorRule_of_present _ sub ty psub pty hc, reinstallFilters_flag]
      simp [hflag]
  refine ⟨hinv.2.2.1, hkeep, ?_⟩
  intro hone
  have hflag : (applyCalls {} calls).m_bMonitoringActive = true :=
    hinv.2.2.1 (by rw [hone]; exact List.cons_ne_nil _ _)
  have hc : qlistContains (applyCalls {} calls).m_lMonitorEntries ⟨sub, ty, psub, pty⟩ = true := by
    rw [qlistContains_iff, hone]
    exact List.mem_singleton.2 rfl
  have hinv2 := registryInv_remove (applyCalls {} calls) sub ty psub pty hinv
  refine ⟨?_, ?_, hkeep hflag, ?_⟩
  · rw [removeMonitorRule_of_present _ sub ty psub pty hc]
  · rw [removeMonitorRule_of_present _ sub ty psub pty hc, reinstallFilters_entries]
    simp [hone, qlistRemoveOne, (opEq_iff _ _).2 rfl]
  · rw [hinv2.2.2.2]
    exact hkeep hflag

/-- Witness for C13: after addRule (block, disk) the rule list is that one rule and
the flag is set; removing the rule leaves an empty list with the flag set. -/
theorem reachable_running_flag_witness :
    (applyCalls {} [RegistryCall.addRule "block" "disk" "" ""]).m_lMonitorEntries
      = [⟨"block", "disk", "", ""⟩] ∧
    (applyCalls {} [RegistryCall.addRule "block" "disk" "" ""]).m_bMonitoringActive = true ∧
    (removeMonitorRule (applyCalls {} [RegistryCall.addRule "block" "disk" "" ""])
      "block" "disk" "" "").2.m_lMonitorEntries = [] ∧
    (removeMonitorRule (applyCalls {} [RegistryCall.addRule "block" "disk" "" ""])
      "block" "disk" "" "").2.m_bMonitoringActive = true :=
  ⟨by decide,
   (reachable_running_flag [RegistryCall.addRule "block" "disk" "" ""]
      "block" "disk" "" "").1 (by decide),
   ((reachable_running_flag [RegistryCall.addRule "block" "disk" "" ""]
      "block" "disk" "" "").2.2 (by decide)).2.1,
   ((reachable_running_flag [RegistryCall.addRule "block" "disk" "" ""]
      "block" "disk" "" "").2.2 (by decide)).2.2.1⟩

/-! ## Claims about the thread loop -/

theorem runIteration_eq (s : QUdevPrivate) (l : MonitorLoop) :
    runIteration s l =
      { pending := l.pending.drop 1
        delivered := l.delivered ++ (l.pending.take 1).flatMap (eventsFor s)
        sleptMs := l.sleptMs + 500 } := by
  unfold runIteration
  cases hp : l.pending with
  | nil => simp [hp]
  | cons received rest =>
    cases received with
    | none => simp [eventsFor, hp]
    | some dev => simp [eventsFor, hp]

theorem iterate_runIteration (s : QUdevPrivate) (k : Nat) :
    ∀ l : MonitorLoop, (runIteration s)^[k] l =
      { pending := l.pending.drop k
        delivered := l.delivered ++ (l.pending.take k).flatMap (eventsFor s)
        sleptMs := l.sleptMs + 500 * k } := by
  induction k with
  | zero => intro l; simp
  | succ k ih =>
    intro l
    rw [Function.iterate_succ_apply, ih, runIteration_eq]
    cases hp : l.pending with
    | nil => simp; omega
    | cons received rest =>
      simp only [List.drop_succ_cons, List.drop_zero, List.take_succ_cons, List.take_zero,
        List.flatMap_cons, List.flatMap_nil, List.append_nil, List.append_assoc]
      congr 1
      omega

/-- C14: when the running flag is found cleared at the loop test of pass k + 1 (the
stop signal was issued during pass k or before), the thread function returns: at
that test it exits without polling, delivering or sleeping, whatever the loop
state is, and counted from the test of pass k it has consumed at most one
notification and slept at most once for 500 ms, having run either nothing or
exactly pass k. After the return nothing more is delivered: the returned loop
state is the final one. -/
theorem run_exits_at_next_test (observe : Nat → QUdevPrivate) (k fuel : Nat) (l : MonitorLoop)
    (hstop : (observe (k + 1)).m_bMonitoringActive = false) :
    ∃ final : MonitorLoop,
      run observe (fuel + 2) k l = some final ∧
      (final = l ∨ final = runIteration (observe k) l) ∧
      final.sleptMs ≤ l.sleptMs + 500 ∧
      l.pending.length ≤ final.pending.length + 1 ∧
      (∀ (m : MonitorLoop) (n : Nat), run observe (n + 1) (k + 1) m = some m) := by
  have hexit : ∀ (m : MonitorLoop) (n : Nat), run observe (n + 1) (k + 1) m = some m := by
    intro m n
    simp [run, hstop]
  cases hk : (observe k).m_bMonitoringActive with
  | false =>
    refine ⟨l, ?_, Or.inl rfl, by omega, by omega, hexit⟩
    simp [run, hk]
  | true =>
    refine ⟨runIteration (observe k) l, ?_, Or.inr rfl, ?_, ?_, hexit⟩
    · rw [run]
      simp only [hk, if_true]
      exact hexit _ fuel
    · rw [runIteration_eq]
    · rw [runIteration_eq]
      simp only [List.length_drop]
      omega

/-- Witness for C14: the rule (block, disk) is registered, one notification is
pending, and the destructor clears the flag during pass 0; the thread function
returns after that pass. -/
theorem run_exits_at_next_test_witness :
    (exampleObserve (0 + 1)).m_bMonitoringActive = false ∧
    ∃ final : MonitorLoop,
      run exampleObserve (0 + 2) 0 { pending := [some exampleUsbDisk] } = some final ∧
      (final = { pending := [some exampleUsbDisk] } ∨
        final = runIteration (exampleObserve 0) { pending := [some exampleUsbDisk] }) ∧
      final.sleptMs ≤ ({ pending := [some exampleUsbDisk] } : MonitorLoop).sleptMs + 500 ∧
      ({ pending := [some exampleUsbDisk] } : MonitorLoop).pending.length
        ≤ final.pending.length + 1 ∧
      (∀ (m : MonitorLoop) (n : Nat), run exampleObserve (n + 1) (0 + 1) m = some m) :=
  ⟨by decide,
   run_exits_at_next_test exampleObserve 0 0 { pending := [some exampleUsbDisk] } (by decide)⟩

/-- C15: every pass of the loop body takes at most one notification from the
socket and ends with a sleep of 500 ms, whether or not a notification was
pending; so after k passes exactly the first k pending notifications have been
taken and dispatched, in order, 500 ms have been slept k times, and the pending
notifications are used up after as many passes as there were notifications. -/
theorem runIteration_one_notification_per_pass (s : QUdevPrivate) (l : MonitorLoop) (k : Nat) :
    (runIteration s l).pending = l.pending.drop 1 ∧
    (runIteration s l).delivered = l.delivered ++ (l.pending.take 1).flatMap (eventsFor s) ∧
    (runIteration s l).sleptMs = l.sleptMs + 500 ∧
    ((runIteration s)^[k] l).pending = l.pending.drop k ∧
    ((runIteration s)^[k] l).pending.length = l.pending.length - k ∧
    ((runIteration s)^[k] l).delivered
      = l.delivered ++ (l.pending.take k).flatMap (eventsFor s) ∧
    ((runIteration s)^[k] l).sleptMs = l.sleptMs + 500 * k ∧
    ((runIteration s)^[l.pending.length] l).pending = [] := by
  refine ⟨?_, ?_, ?_, ?_, ?_, ?_, ?_, ?_⟩
  · rw [runIteration_eq]
  · rw [runIteration_eq]
  · rw [runIteration_eq]
  · rw [iterate_runIteration]
  · rw [iterate_runIteration]
    simp
  · rw [iterate_runIteration]
  · rw [iterate_runIteration]
  · rw [iterate_runIteration]
    simp

end QUdev
